import Mathlib

/-!
Verification of the conversion pipeline and result-versioning engine of the
UML-to-SQLAlchemy converter, shallowly embedded from the Python sources
(`core.py`, `gui.py`).

The embedding conventions:
* Python strings are Lean `String`s; Python `int` is `Int` (unbounded), list
  indices are `Nat`.
* The mutable `ProcessingResult` object of `gui.py` becomes an immutable
  record with explicit state passing; every method is a function from the
  old state to the new state (and, where the method returns a value, a
  companion function computing the returned text).
* The external GigaChat service call (`chain.invoke`) is an abstract
  function parameter `invoke : List String → Except String SQLAlchemyModels`:
  `Except.error e` models a raised exception whose `str(e)` is `e`, and
  `Except.ok r` models a successfully parsed response.
* Directory listing (`os.listdir`) is passed as data: `none` models a path
  that is not a directory, `some entries` an existing directory's entries.
-/

namespace UmlSql

/-! ### Result version store: class `ProcessingResult` in `gui.py`

The Python object keeps `history : List[str]`, `current_version : int` and
`original_code : str`.  Construction seeds the history with the original
code (or error text); the `code` setter commits a new snapshot; `undo`,
`redo`, `restore_original` move the pointer. -/

/-- State of one `ProcessingResult`: the snapshot history, the pointer
`current_version`, and the separately stored `original_code` field. -/
structure ProcessingResult where
  history : List String
  current_version : Nat
  original_code : String
deriving DecidableEq

namespace ProcessingResult

/-- `ProcessingResult.__init__`: the history is seeded with the original
code text (for a success) or the error text (for a failure); the pointer
starts at 0 and `original_code` stores the same seed. -/
def init (seed : String) : ProcessingResult :=
  { history := [seed], current_version := 0, original_code := seed }

/-- The `code` property getter: `self.history[self.current_version]`.
Python would raise on an out-of-range index; the store's invariant keeps the
index in range, and the embedding totalises with `getD`. -/
def code (s : ProcessingResult) : String :=
  s.history.getD s.current_version ""

/-- The `code` property setter (the commit operation): if
`len(history) == current_version + 1` append the value, otherwise truncate
the history to `history[:current_version+1]` and append; in both cases the
pointer advances by one. -/
def setCode (s : ProcessingResult) (value : String) : ProcessingResult :=
  if s.history.length = s.current_version + 1 then
    { s with history := s.history ++ [value],
             current_version := s.current_version + 1 }
  else
    { s with history := s.history.take (s.current_version + 1) ++ [value],
             current_version := s.current_version + 1 }

/-- `restore_original`: sets `current_version = 0`; the history itself is
untouched. -/
def restore_original (s : ProcessingResult) : ProcessingResult :=
  { s with current_version := 0 }

/-- The text returned by `restore_original`: both Python branches return
`self.original_code`. -/
def restoreText (s : ProcessingResult) : String :=
  s.original_code

/-- `undo`: if `current_version > 0`, decrement the pointer; the history is
untouched. -/
def undo (s : ProcessingResult) : ProcessingResult :=
  if 0 < s.current_version then
    { s with current_version := s.current_version - 1 }
  else s

/-- `redo`: if `current_version < len(history) - 1`, increment the pointer;
the history is untouched. -/
def redo (s : ProcessingResult) : ProcessingResult :=
  if s.current_version < s.history.length - 1 then
    { s with current_version := s.current_version + 1 }
  else s

/-- `has_undo`: `current_version > 0`. -/
def has_undo (s : ProcessingResult) : Bool :=
  decide (0 < s.current_version)

/-- `has_redo`: `current_version < len(history) - 1`. -/
def has_redo (s : ProcessingResult) : Bool :=
  decide (s.current_version < s.history.length - 1)

end ProcessingResult

/-- One mutating operation on the version store. -/
inductive Op where
  | commit (v : String)
  | undo
  | redo
  | restore
deriving DecidableEq

/-- Apply one operation to a store state. -/
def applyOp (s : ProcessingResult) : Op → ProcessingResult
  | Op.commit v => s.setCode v
  | Op.undo => s.undo
  | Op.redo => s.redo
  | Op.restore => s.restore_original

/-- Run a sequence of operations starting from a freshly constructed store
seeded with the given text. -/
def runOps (seed : String) (ops : List Op) : ProcessingResult :=
  ops.foldl applyOp (ProcessingResult.init seed)

/-- The store invariant stated by the spec: the pointer indexes into the
history. -/
def Inv (s : ProcessingResult) : Prop :=
  s.current_version < s.history.length

/-- A concrete reachable state used to settle the undo/redo round-trip
claim: seed with "a", commit "b", undo once.  The pointer is at the
earliest entry while a redo is available. -/
def atFloorState : ProcessingResult :=
  runOps "a" [Op.commit "b", Op.undo]

/-! ### Structured artifact: class `SQLAlchemyModels` in `core.py`

A pydantic model with required string fields `code` and `summary`, an `int`
field `token_usage` defaulting to 0, and a validator rejecting any `code`
that does not contain the substring `declarative_base`. -/

/-- A successfully constructed `SQLAlchemyModels` pydantic object. -/
structure SQLAlchemyModels where
  code : String
  summary : String
  token_usage : Int
deriving DecidableEq

/-- A parsed service response before pydantic validation: `code` and
`summary` are present (parsing already failed otherwise), `token_usage` may
be omitted. -/
structure RawResponse where
  code : String
  summary : String
  token_usage : Option Int
deriving DecidableEq

/-- Python substring containment `pat in s`, on character lists. -/
def hasSubList (pat : List Char) : List Char → Bool
  | [] => pat.isEmpty
  | c :: cs => pat.isPrefixOf (c :: cs) || hasSubList pat cs

/-- The validator's test: `'declarative_base' in v`. -/
def containsDeclarativeBase (v : String) : Bool :=
  hasSubList "declarative_base".toList v.toList

/-- The message of the `ValueError` raised by `code_must_contain_models`. -/
def validationMessage : String :=
  "Сгенерированный код не содержит базовый класс SQLAlchemy"

/-- Construction of `SQLAlchemyModels` from a parsed response: the
`code_must_contain_models` validator rejects a `code` without the
`declarative_base` marker; otherwise the object is built, with
`token_usage` defaulting to 0 when the response omits it. -/
def mkSQLAlchemyModels (r : RawResponse) : Except String SQLAlchemyModels :=
  if containsDeclarativeBase r.code then
    Except.ok { code := r.code, summary := r.summary,
                token_usage := r.token_usage.getD 0 }
  else
    Except.error validationMessage

/-! ### Batch orchestrator: `ConversionThread.run` in `gui.py` -/

/-- One `result_ready` emission: either a successful artifact or an error
message, together with the display name and the source image path (the
`config` argument is a run-constant and is omitted). -/
inductive ConversionOutcome where
  | success (result : SQLAlchemyModels) (name : String) (tokens : Int) (path : String)
  | failure (msg : String) (name : String) (path : String)
deriving DecidableEq

/-- `os.path.basename`: everything after the last `/`. -/
def basename (p : String) : String :=
  String.mk ((p.data.reverse.takeWhile (fun c => c != '/')).reverse)

/-- The body of one iteration of the separate-mode loop in
`ConversionThread.run`: invoke the chain on the single path; on success,
prepend the source-file comment line to the code and emit a success with
`token_usage = 0`; on any raised exception, emit the error message built in
the `except` branch.  Processing then continues with the next path. -/
def processSeparateUnit (invoke : List String → Except String SQLAlchemyModels)
    (p : String) : ConversionOutcome :=
  match invoke [p] with
  | Except.ok r =>
      ConversionOutcome.success
        { r with code := "# Код для изображения: " ++ basename p ++ "\n" ++ r.code }
        (basename p) 0 p
  | Except.error e =>
      ConversionOutcome.failure ("❌ Ошибка обработки " ++ basename p ++ ": " ++ e)
        (basename p) p

/-- The ordered sequence of `result_ready` emissions of a separate-mode run
that is not cancelled: one outcome per scanned path, in scan order. -/
def runSeparate (invoke : List String → Except String SQLAlchemyModels)
    (paths : List String) : List ConversionOutcome :=
  paths.map (processSeparateUnit invoke)

/-- The invoker induced by a parsed-response oracle: the chain parses the
service response for the given attachment paths and runs pydantic
validation on it. -/
def invokeParsed (respond : List String → RawResponse)
    (ps : List String) : Except String SQLAlchemyModels :=
  mkSQLAlchemyModels (respond ps)

/-- A concrete invoker used to witness the failure-isolation theorem:
the unit for path "b.png" raises, every other unit succeeds. -/
def demoInvoke : List String → Except String SQLAlchemyModels :=
  fun ps =>
    if ps = ["b.png"] then Except.error "boom"
    else Except.ok { code := "declarative_base", summary := "ok", token_usage := 0 }

/-- The percentages of the `progress` emissions of a separate-mode run over
`n ≥ 1` images in which the cooperative stop flag allows `c` loop
iterations (`c ≥ n` models a run that is never cancelled): 10 before chain
building, 30 before the loop, `40 + i*50/n` before unit `i`, and 100 after
the loop when it was not cut short.  Python computes `int(i * 50 / n)`
with float division; the value equals floor division for every realistic
batch size, embedded here as `Nat` division. -/
def separatePercents (n c : Nat) : List Nat :=
  [10, 30] ++ ((List.range (min c n)).map (fun i => 40 + i * 50 / n)
    ++ (if n ≤ c then [100] else []))

/-- The percentages of the `progress` emissions of a combined-mode run:
the combined branch emits 40 once and never checks the stop flag. -/
def combinedPercents : List Nat :=
  [10, 30, 40, 100]

/-! ### Folder scanner: `process_folder` in `core.py` -/

/-- The extension allow-list `supported_ext`. -/
def supported_ext : List String :=
  [".jpg", ".jpeg", ".png", ".bmp"]

/-- ASCII lowercasing of one character, as Python `str.lower` acts on the
ASCII range (the only range the allow-list comparison can match). -/
def lowerChar (c : Char) : Char :=
  if 'A' ≤ c ∧ c ≤ 'Z' then Char.ofNat (c.toNat + 32) else c

/-- Lowercase a whole string. -/
def lowerString (s : String) : String :=
  String.mk (s.data.map lowerChar)

/-- `os.path.splitext(f)[1]` for a directory entry name (no separators in
scope beyond the final component): the suffix starting at the last dot,
provided some character strictly before that dot is not itself a dot;
otherwise the empty extension. -/
def splitextExt (f : String) : String :=
  let cs := f.data
  match cs.reverse.findIdx? (fun c => c == '.') with
  | none => ""
  | some j =>
      let dotIdx := cs.length - 1 - j
      if (cs.take dotIdx).any (fun c => c != '.') then String.mk (cs.drop dotIdx)
      else ""

/-- The filter of `process_folder`:
`os.path.splitext(f)[1].lower() in supported_ext`. -/
def isSupportedImage (f : String) : Bool :=
  supported_ext.contains (lowerString (splitextExt f))

/-- Python `b.startswith('/')`, on the character data. -/
def startsWithSep (b : String) : Bool :=
  "/".data.isPrefixOf b.data

/-- Python `a.endswith('/')`, on the character data. -/
def endsWithSep (a : String) : Bool :=
  List.isSuffixOf "/".data a.data

/-- `os.path.join` for POSIX paths, two arguments. -/
def osPathJoin (a b : String) : String :=
  if startsWithSep b then b
  else if a = "" || endsWithSep a then a ++ b
  else a ++ "/" ++ b

/-- `process_folder`: raise `ValueError` when the path is not a directory,
otherwise keep exactly the entries whose lowercased extension is in the
allow-list, each joined to the folder path, in listing order. -/
def process_folder (folder : String) (listing : Option (List String)) :
    Except String (List String) :=
  match listing with
  | none => Except.error ("❌ Папка не существует: " ++ folder)
  | some entries =>
      Except.ok ((entries.filter isSupportedImage).map (osPathJoin folder))

/-- A concrete parsed-response oracle whose code text lacks the
declarative-base marker, used to witness the validation theorem. -/
def demoRespond : List String → RawResponse :=
  fun _ => { code := "no marker here", summary := "s", token_usage := none }

/-! ### Helper lemmas -/

/-- The history of an invariant-satisfying store is a nonempty list. -/
theorem history_cons_of_inv (s : ProcessingResult) (h : Inv s) :
    ∃ x t, s.history = x :: t := by
  cases hh : s.history with
  | nil =>
      simp only [Inv, hh, List.length_nil] at h
      omega
  | cons x t => exact ⟨x, t, rfl⟩

/-- Committing preserves the pointer invariant. -/
theorem setCode_inv (s : ProcessingResult) (v : String) (h : Inv s) :
    Inv (s.setCode v) := by
  simp only [Inv] at h
  by_cases hc : s.history.length = s.current_version + 1
  · simp only [Inv, ProcessingResult.setCode, if_pos hc, List.length_append,
      List.length_cons, List.length_nil]
    omega
  · simp only [Inv, ProcessingResult.setCode, if_neg hc, List.length_append,
      List.length_take, List.length_cons, List.length_nil]
    omega

/-- Committing never changes the head of the history. -/
theorem setCode_head (s : ProcessingResult) (v : String) (h : Inv s) :
    (s.setCode v).history.head? = s.history.head? := by
  obtain ⟨x, t, hxt⟩ := history_cons_of_inv s h
  simp only [ProcessingResult.setCode, hxt]
  split
  · rfl
  · rfl

/-- Committing never changes the `original_code` field. -/
theorem setCode_original (s : ProcessingResult) (v : String) :
    (s.setCode v).original_code = s.original_code := by
  simp only [ProcessingResult.setCode]
  split
  · rfl
  · rfl

/-- Each single operation preserves the pointer invariant, the seed entry at
the head of the history, and the `original_code` field. -/
theorem applyOp_preserves (s : ProcessingResult) (op : Op) (h : Inv s) :
    Inv (applyOp s op) ∧ (applyOp s op).history.head? = s.history.head? ∧
    (applyOp s op).original_code = s.original_code := by
  cases op with
  | commit v =>
      exact ⟨setCode_inv s v h, setCode_head s v h, setCode_original s v⟩
  | undo =>
      simp only [applyOp, ProcessingResult.undo]
      split
      · refine ⟨?_, rfl, rfl⟩
        simp only [Inv] at h ⊢
        omega
      · exact ⟨h, rfl, rfl⟩
  | redo =>
      simp only [applyOp, ProcessingResult.redo]
      split
      · refine ⟨?_, rfl, rfl⟩
        simp only [Inv] at h ⊢
        omega
      · exact ⟨h, rfl, rfl⟩
  | restore =>
      refine ⟨?_, rfl, rfl⟩
      simp only [Inv, applyOp, ProcessingResult.restore_original] at h ⊢
      omega

/-- Folding any operation sequence from an invariant state preserves the
invariant, the head of the history, and `original_code`. -/
theorem foldl_preserves (ops : List Op) (s : ProcessingResult) (h : Inv s) :
    Inv (ops.foldl applyOp s) ∧
    (ops.foldl applyOp s).history.head? = s.history.head? ∧
    (ops.foldl applyOp s).original_code = s.original_code := by
  induction ops generalizing s with
  | nil => exact ⟨h, rfl, rfl⟩
  | cons op rest ih =>
      obtain ⟨h1, h2, h3⟩ := applyOp_preserves s op h
      obtain ⟨g1, g2, g3⟩ := ih (applyOp s op) h1
      exact ⟨g1, g2.trans h2, g3.trans h3⟩

/-- A freshly constructed store satisfies the invariant. -/
theorem init_inv (seed : String) : Inv (ProcessingResult.init seed) := by
  simp [Inv, ProcessingResult.init]

/-! ### Claims about the version store -/

/-- C2: committing while the pointer references the last history entry
appends the new text and advances the pointer by one; committing anywhere
else first discards every entry after the pointer, then appends and
advances.  In particular, after seeding with "v1", committing "v2" and
"v3", undoing twice and committing "v4", the history is ["v1", "v4"], the
pointer is at index 1, `has_redo` is false, and a subsequent redo is a
no-op. -/
theorem commit_appends_or_truncates (s : ProcessingResult) (v : String) :
    (s.history.length = s.current_version + 1 →
      (s.setCode v).history = s.history ++ [v] ∧
      (s.setCode v).current_version = s.current_version + 1) ∧
    (s.history.length ≠ s.current_version + 1 →
      (s.setCode v).history = s.history.take (s.current_version + 1) ++ [v] ∧
      (s.setCode v).current_version = s.current_version + 1) ∧
    (runOps "v1" [Op.commit "v2", Op.commit "v3", Op.undo, Op.undo,
      Op.commit "v4"]).history = ["v1", "v4"] ∧
    (runOps "v1" [Op.commit "v2", Op.commit "v3", Op.undo, Op.undo,
      Op.commit "v4"]).current_version = 1 ∧
    (runOps "v1" [Op.commit "v2", Op.commit "v3", Op.undo, Op.undo,
      Op.commit "v4"]).has_redo = false ∧
    (runOps "v1" [Op.commit "v2", Op.commit "v3", Op.undo, Op.undo,
      Op.commit "v4"]).redo =
      runOps "v1" [Op.commit "v2", Op.commit "v3", Op.undo, Op.undo,
        Op.commit "v4"] := by
  refine ⟨?_, ?_, by decide, by decide, by decide, by decide⟩
  · intro h
    simp [ProcessingResult.setCode, if_pos h]
  · intro h
    simp [ProcessingResult.setCode, if_neg h]

/-- Witness for C2: committing "v2" on a store freshly seeded with "v1"
takes the append branch. -/
theorem commit_appends_or_truncates_witness :
    (ProcessingResult.init "v1").history.length =
      (ProcessingResult.init "v1").current_version + 1 ∧
    (((ProcessingResult.init "v1").setCode "v2").history =
        (ProcessingResult.init "v1").history ++ ["v2"] ∧
      ((ProcessingResult.init "v1").setCode "v2").current_version =
        (ProcessingResult.init "v1").current_version + 1) :=
  ⟨by decide, (commit_appends_or_truncates (ProcessingResult.init "v1") "v2").1 (by decide)⟩

/-- C3 fails as stated: in the reachable state obtained by seeding with
"a", committing "b" and undoing once, the pointer sits at the earliest
entry while a redo is available; `undo` is then a no-op but `redo` still
advances, so undo-then-redo returns "b" although the current text before
the undo was "a". -/
theorem undo_redo_roundtrip_fails_at_floor :
    atFloorState.undo.redo.code ≠ atFloorState.code := by decide

/-- C3 (amended): for every store state satisfying the pointer invariant in
which an undo is actually available (`has_undo` true), calling undo and
then immediately redo returns the same text that was current before the
undo. -/
theorem undo_redo_roundtrip_with_undo_available (s : ProcessingResult)
    (hinv : s.current_version < s.history.length) (h : s.has_undo = true) :
    s.undo.redo.code = s.code := by
  have h0 : 0 < s.current_version := by
    simpa [ProcessingResult.has_undo] using h
  simp only [ProcessingResult.undo, if_pos h0, ProcessingResult.redo]
  rw [if_pos (by omega : s.current_version - 1 < s.history.length - 1)]
  simp only [ProcessingResult.code]
  congr 1
  omega

/-- Witness for C3 (amended): in the state reached by seeding with "a" and
committing "b", undo-then-redo restores the current text. -/
theorem undo_redo_roundtrip_with_undo_available_witness :
    (runOps "a" [Op.commit "b"]).current_version <
      (runOps "a" [Op.commit "b"]).history.length ∧
    (runOps "a" [Op.commit "b"]).has_undo = true ∧
    (runOps "a" [Op.commit "b"]).undo.redo.code = (runOps "a" [Op.commit "b"]).code :=
  ⟨by decide, by decide,
    undo_redo_roundtrip_with_undo_available (runOps "a" [Op.commit "b"])
      (by decide) (by decide)⟩

/-- C6: along every operation sequence from construction, the pointer stays
within `0 ≤ pointer < length(history)` and the seeded text at index 0 is
never overwritten (the head of the history is always the seed). -/
theorem version_store_invariant_and_root_immutable (seed : String) (ops : List Op) :
    (runOps seed ops).current_version < (runOps seed ops).history.length ∧
    (runOps seed ops).history.head? = some seed := by
  have h := foldl_preserves ops (ProcessingResult.init seed) (init_inv seed)
  exact ⟨h.1, by simpa [ProcessingResult.init] using h.2.1⟩

/-- C7: after any prior operation sequence, `restore_original` resets the
pointer to 0, deletes no history entry, and returns exactly the text the
store was seeded with. -/
theorem restore_original_resets_pointer_keeps_history (seed : String) (ops : List Op) :
    ((runOps seed ops).restore_original).history = (runOps seed ops).history ∧
    ((runOps seed ops).restore_original).current_version = 0 ∧
    (runOps seed ops).restoreText = seed := by
  refine ⟨rfl, rfl, ?_⟩
  have h := foldl_preserves ops (ProcessingResult.init seed) (init_inv seed)
  simpa [runOps, ProcessingResult.restoreText, ProcessingResult.init] using h.2.2

/-- C10: `undo` and `redo` leave the history list entirely unchanged; only
the pointer moves. -/
theorem undo_redo_preserve_history (s : ProcessingResult) :
    s.undo.history = s.history ∧ s.redo.history = s.history := by
  constructor
  · simp only [ProcessingResult.undo]
    split <;> rfl
  · simp only [ProcessingResult.redo]
    split <;> rfl

/-! ### Claims about the batch orchestrator -/

/-- C1: in separate mode, when the unit at index `k` raises, the run still
emits one outcome per scanned path, in scan order; the `k`-th outcome is
the failure message built in the `except` branch, and every outcome is the
independent result of its own unit. -/
theorem separate_mode_failure_isolation
    (invoke : List String → Except String SQLAlchemyModels)
    (paths : List String) (k : Nat) (pk e : String)
    (hk : paths[k]? = some pk)
    (hfail : invoke [pk] = Except.error e) :
    (runSeparate invoke paths).length = paths.length ∧
    (runSeparate invoke paths)[k]? =
      some (ConversionOutcome.failure
        ("❌ Ошибка обработки " ++ basename pk ++ ": " ++ e) (basename pk) pk) ∧
    ∀ (j : Nat) (q : String), paths[j]? = some q →
      (runSeparate invoke paths)[j]? = some (processSeparateUnit invoke q) := by
  refine ⟨by simp [runSeparate], ?_, ?_⟩
  · rw [runSeparate, List.getElem?_map, hk]
    simp [processSeparateUnit, hfail]
  · intro j q hj
    rw [runSeparate, List.getElem?_map, hj]
    rfl

/-- Witness for C1: three scanned paths of which the second raises; the run
emits three outcomes in order, the second a failure. -/
theorem separate_mode_failure_isolation_witness :
    (runSeparate demoInvoke ["a.png", "b.png", "c.png"]).length =
      (["a.png", "b.png", "c.png"] : List String).length ∧
    (runSeparate demoInvoke ["a.png", "b.png", "c.png"])[1]? =
      some (ConversionOutcome.failure
        ("❌ Ошибка обработки " ++ basename "b.png" ++ ": " ++ "boom")
        (basename "b.png") "b.png") ∧
    ∀ (j : Nat) (q : String),
      (["a.png", "b.png", "c.png"] : List String)[j]? = some q →
      (runSeparate demoInvoke ["a.png", "b.png", "c.png"])[j]? =
        some (processSeparateUnit demoInvoke q) :=
  separate_mode_failure_isolation demoInvoke ["a.png", "b.png", "c.png"] 1
    "b.png" "boom" (by rfl) (by rfl)

/-- C4: when the parsed response's code text lacks the declarative-base
marker, no `SQLAlchemyModels` object is ever constructed — pydantic
validation fails — and the unit's outcome is a failure carrying the
validation message, never a success. -/
theorem missing_marker_never_constructs_artifact
    (respond : List String → RawResponse) (p : String)
    (h : containsDeclarativeBase (respond [p]).code = false) :
    (∀ a, mkSQLAlchemyModels (respond [p]) ≠ Except.ok a) ∧
    processSeparateUnit (invokeParsed respond) p =
      ConversionOutcome.failure
        ("❌ Ошибка обработки " ++ basename p ++ ": " ++ validationMessage)
        (basename p) p := by
  have hm : mkSQLAlchemyModels (respond [p]) = Except.error validationMessage := by
    rw [mkSQLAlchemyModels, if_neg]
    simp [h]
  constructor
  · intro a ha
    rw [hm] at ha
    exact Except.noConfusion ha
  · simp [processSeparateUnit, invokeParsed, hm]

/-- Witness for C4: a concrete response without the marker produces the
validation failure outcome. -/
theorem missing_marker_never_constructs_artifact_witness :
    containsDeclarativeBase (demoRespond ["img.png"]).code = false ∧
    ((∀ a, mkSQLAlchemyModels (demoRespond ["img.png"]) ≠ Except.ok a) ∧
      processSeparateUnit (invokeParsed demoRespond) "img.png" =
        ConversionOutcome.failure
          ("❌ Ошибка обработки " ++ basename "img.png" ++ ": " ++ validationMessage)
          (basename "img.png") "img.png") :=
  ⟨by rfl, missing_marker_never_constructs_artifact demoRespond "img.png" (by rfl)⟩

/-- C8: for a separate-mode run over `n ≥ 1` images with any cooperative
cancellation point `c`, and for a combined-mode run, the emitted progress
percentages are monotonically non-decreasing and each lies in 0–100 (the
lower bound holding since percentages are naturals). -/
theorem progress_percents_monotone_bounded (n c : Nat) (hn : 1 ≤ n) :
    List.Chain' (fun x y => x ≤ y) (separatePercents n c) ∧
    (∀ x ∈ separatePercents n c, x ≤ 100) ∧
    List.Chain' (fun x y => x ≤ y) combinedPercents ∧
    (∀ x ∈ combinedPercents, x ≤ 100) := by
  have hstep : ∀ x ∈ (List.range (min c n)).map (fun i => 40 + i * 50 / n),
      40 ≤ x ∧ x ≤ 89 := by
    intro x hx
    rcases List.mem_map.mp hx with ⟨i, hi, rfl⟩
    have hin : i < n := lt_of_lt_of_le (List.mem_range.mp hi) (min_le_right c n)
    refine ⟨Nat.le_add_right 40 _, ?_⟩
    have hq : i * 50 / n < 50 := by
      rw [Nat.div_lt_iff_lt_mul (by omega : 0 < n)]
      omega
    omega
  have htail : ∀ b ∈ (if n ≤ c then [100] else ([] : List Nat)), b = 100 := by
    intro b hb
    split at hb
    · simpa using hb
    · simp at hb
  have hcomb : List.Pairwise (fun x y => x ≤ y) combinedPercents := by
    rw [combinedPercents]
    simp
  have hpair : List.Pairwise (fun x y => x ≤ y) (separatePercents n c) := by
    rw [separatePercents, List.pairwise_append]
    refine ⟨by simp, ?_, ?_⟩
    · rw [List.pairwise_append]
      refine ⟨?_, ?_, ?_⟩
      · refine List.Pairwise.map _ ?_ (List.pairwise_lt_range (min c n))
        intro a b hab
        have : a * 50 / n ≤ b * 50 / n :=
          Nat.div_le_div_right (by omega)
        omega
      · split
        · simp
        · simp
      · intro a ha b hb
        have h1 := (hstep a ha).2
        have h2 := htail b hb
        omega
    · intro a ha b hb
      have ha' : a = 10 ∨ a = 30 := by simpa using ha
      rcases List.mem_append.mp hb with hb | hb
      · have := (hstep b hb).1
        omega
      · have := htail b hb
        omega
  refine ⟨hpair.chain', ?_, hcomb.chain', ?_⟩
  · intro x hx
    rw [separatePercents] at hx
    rcases List.mem_append.mp hx with hx | hx
    · have hx' : x = 10 ∨ x = 30 := by simpa using hx
      omega
    · rcases List.mem_append.mp hx with hx | hx
      · have := (hstep x hx).2
        omega
      · have := htail x hx
        omega
  · intro x hx
    have hx' : x = 10 ∨ x = 30 ∨ x = 40 ∨ x = 100 := by
      simpa [combinedPercents] using hx
    omega

/-- Witness for C8: a three-image separate run that is never cancelled, and
the combined run. -/
theorem progress_percents_monotone_bounded_witness :
    1 ≤ 3 ∧
    (List.Chain' (fun x y => x ≤ y) (separatePercents 3 10) ∧
      (∀ x ∈ separatePercents 3 10, x ≤ 100) ∧
      List.Chain' (fun x y => x ≤ y) combinedPercents ∧
      (∀ x ∈ combinedPercents, x ≤ 100)) :=
  ⟨by decide, progress_percents_monotone_bounded 3 10 (by decide)⟩

/-! ### Claims about the structured artifact -/

/-- C9 fails as stated: the pydantic field `token_usage: int = Field(0)`
carries no lower-bound constraint, so a response reporting a negative
token count constructs an artifact with negative `token_usage`. -/
theorem token_usage_negative_artifact_constructible :
    mkSQLAlchemyModels (RawResponse.mk "declarative_base" "s" (some (-1))) =
      Except.ok (SQLAlchemyModels.mk "declarative_base" "s" (-1)) ∧
    ¬(0 ≤ (SQLAlchemyModels.mk "declarative_base" "s" (-1)).token_usage) :=
  ⟨by rfl, by decide⟩

/-- C9 (amended): every constructed artifact's `token_usage` equals the
integer supplied by the service response, and is 0 whenever the response
omits the field; non-negativity is not enforced at construction. -/
theorem token_usage_mirrors_response_default_zero (r : RawResponse)
    (a : SQLAlchemyModels) (h : mkSQLAlchemyModels r = Except.ok a) :
    a.token_usage = r.token_usage.getD 0 ∧
    (r.token_usage = none → a.token_usage = 0) := by
  rw [mkSQLAlchemyModels] at h
  by_cases hc : containsDeclarativeBase r.code = true
  · rw [if_pos hc] at h
    injection h with h
    constructor
    · rw [← h]
    · intro hn
      rw [← h]
      simp [hn]
  · rw [if_neg hc] at h
    exact Except.noConfusion h

/-- Witness for C9 (amended): a response omitting `token_usage` constructs
an artifact with `token_usage = 0`. -/
theorem token_usage_mirrors_response_default_zero_witness :
    mkSQLAlchemyModels (RawResponse.mk "declarative_base" "s" none) =
      Except.ok (SQLAlchemyModels.mk "declarative_base" "s" 0) ∧
    ((SQLAlchemyModels.mk "declarative_base" "s" 0).token_usage =
        (RawResponse.mk "declarative_base" "s" none).token_usage.getD 0 ∧
      ((RawResponse.mk "declarative_base" "s" none).token_usage = none →
        (SQLAlchemyModels.mk "declarative_base" "s" 0).token_usage = 0)) :=
  ⟨by rfl,
    token_usage_mirrors_response_default_zero
      (RawResponse.mk "declarative_base" "s" none)
      (SQLAlchemyModels.mk "declarative_base" "s" 0) (by rfl)⟩

/-! ### Claims about the folder scanner -/

/-- Appending on the left of a string is cancellative. -/
theorem string_append_left_cancel {a b c : String} (h : a ++ b = a ++ c) :
    b = c := by
  apply String.ext
  have h2 := congrArg String.data h
  rw [String.data_append, String.data_append] at h2
  exact List.append_cancel_left h2

/-- For a fixed folder, joining is injective on entry names that do not
start with a separator (every `os.listdir` entry is such a name). -/
theorem osPathJoin_inj (a : String) {b c : String}
    (hb : startsWithSep b = false) (hc : startsWithSep c = false)
    (h : osPathJoin a b = osPathJoin a c) : b = c := by
  rw [osPathJoin, osPathJoin, hb, hc] at h
  simp only [Bool.false_eq_true, if_false] at h
  by_cases h2 : (a = "" || endsWithSep a) = true
  · rw [if_pos h2, if_pos h2] at h
    exact string_append_left_cancel h
  · rw [if_neg h2, if_neg h2] at h
    exact string_append_left_cancel h

/-- C5: scanning an existing directory returns exactly the entries whose
lowercased final-component extension is in the allow-list, each joined to
the folder path, each matching entry exactly once (the result is
duplicate-free and has one element per matching entry). -/
theorem folder_scan_returns_exactly_supported (folder : String)
    (entries : List String) (hnd : entries.Nodup)
    (hs : ∀ f ∈ entries, startsWithSep f = false) :
    ∃ res, process_folder folder (some entries) = Except.ok res ∧
      (∀ f ∈ entries, isSupportedImage f = true → osPathJoin folder f ∈ res) ∧
      (∀ x ∈ res, ∃ f, f ∈ entries ∧ isSupportedImage f = true ∧
        x = osPathJoin folder f) ∧
      res.Nodup ∧
      res.length = (entries.filter isSupportedImage).length := by
  refine ⟨(entries.filter isSupportedImage).map (osPathJoin folder), rfl,
    ?_, ?_, ?_, by simp⟩
  · intro f hf hsup
    exact List.mem_map_of_mem _ (List.mem_filter.mpr ⟨hf, hsup⟩)
  · intro x hx
    rcases List.mem_map.mp hx with ⟨f, hf, rfl⟩
    have hf' := List.mem_filter.mp hf
    exact ⟨f, hf'.1, hf'.2, rfl⟩
  · refine List.Nodup.map_on ?_ (hnd.filter _)
    intro x hx y hy hxy
    exact osPathJoin_inj folder (hs x (List.mem_of_mem_filter hx))
      (hs y (List.mem_of_mem_filter hy)) hxy

/-- Witness for C5: the directory containing `a.png`, `b.txt`, `c.JPG`
yields exactly the joined paths of `a.png` and `c.JPG`. -/
theorem folder_scan_returns_exactly_supported_witness :
    process_folder "d" (some ["a.png", "b.txt", "c.JPG"]) =
      Except.ok ["d/a.png", "d/c.JPG"] ∧
    (∃ res, process_folder "d" (some ["a.png", "b.txt", "c.JPG"]) = Except.ok res ∧
      (∀ f ∈ (["a.png", "b.txt", "c.JPG"] : List String),
        isSupportedImage f = true → osPathJoin "d" f ∈ res) ∧
      (∀ x ∈ res, ∃ f, f ∈ (["a.png", "b.txt", "c.JPG"] : List String) ∧
        isSupportedImage f = true ∧ x = osPathJoin "d" f) ∧
      res.Nodup ∧
      res.length =
        ((["a.png", "b.txt", "c.JPG"] : List String).filter isSupportedImage).length) :=
  ⟨by rfl,
    folder_scan_returns_exactly_supported "d" ["a.png", "b.txt", "c.JPG"]
      (by decide) (by decide)⟩

end UmlSql
